import Mathlib

/-
Verification of the sand-grid component of the glass repository
(src/examples/sand/grid.rs): a shallow embedding of the Grid structure and
its operations, followed by theorems settling the specified properties.

Machine integers (u32, i32, usize) are modelled by Nat and Int: every cast
in the source is guarded in range by the surrounding bounds checks, so no
wrapping occurs on the modelled executions.  The f32 arithmetic of
draw_sand_radius (integer-point distances, rounding, truncating casts) is
modelled by exact rational/integer arithmetic, which agrees with the f32
computation at grid scales (inputs are integer points well inside the range
where f32 is exact and sqrt is correctly rounded with no tie cases).
The process-wide rand::random::<f32>() generator is modelled by an injected
stream of rational samples together with a counter of samples drawn.
-/

namespace Glass

/-- RGBA color value, one natural number per byte channel. -/
abbrev Rgba : Type := ℕ × ℕ × ℕ × ℕ

/-- Modelled from the spec: the material tag of a cell, Empty or a granular
sand variant (the file sand.rs defining SandType is not under src/; the spec
describes a material as none, or a specific granular type). -/
inductive SandType where
  | empty : SandType
  | sand : SandType
deriving DecidableEq

/-- Modelled from the spec: SandType::is_empty, true exactly on the empty
material. -/
def SandType.is_empty : SandType → Bool
  | .empty => true
  | .sand => false

/-- Modelled from the spec: a cell (Sand in sand.rs, not under src/) holds a
material tag and a display color.  The color and its to_srgba_unmultiplied
conversion are modelled as a single RGBA byte 4-tuple. -/
structure Sand where
  sand : SandType
  color : Rgba
deriving DecidableEq

/-- Modelled from the spec: Sand::empty, the default cell — no material and
no effect on the image, so its display color is the transparent black that
RgbaImage::new zero-initializes the pixel buffer with. -/
def Sand.empty : Sand := ⟨SandType.empty, (0, 0, 0, 0)⟩

/-- Modelled from the spec: Sand::from_type builds a freshly constructed cell
of the given material at a position.  The position-dependent color variation
of sand.rs is unspecified, so a fixed per-material color is used; no claim
depends on the particular color of a non-empty material. -/
def Sand.from_type (t : SandType) (pos : ℤ × ℤ) : Sand :=
  ⟨t, match t, pos with
      | .empty, _ => (0, 0, 0, 0)
      | .sand, _ => (194, 178, 128, 255)⟩

/-- The Grid of grid.rs: the flat cell array, the parallel RGBA pixel buffer
(row-major, top row first, as uploaded), the dimensions, and the dirty flag.
The GPU-side texture and bind group are external resources and carry no
state observable by the claims. -/
structure Grid where
  data : List Sand
  rgba : List Rgba
  width : ℕ
  height : ℕ
  changed : Bool
deriving DecidableEq

namespace Grid

/-- Rust Grid::new: every cell empty, pixel buffer zeroed, flag clear. -/
def new (width height : ℕ) : Grid :=
  { data := List.replicate (width * height) Sand.empty
    rgba := List.replicate (width * height) (0, 0, 0, 0)
    width := width
    height := height
    changed := false }

/-- Rust Grid::index: logical (x, y) to the linear storage index
(height - y - 1) * width + x.  The as-usize cast is modelled by Int.toNat;
every call site guards the coordinates in range, so the cast never wraps. -/
def index (g : Grid) (x y : ℤ) : ℕ :=
  (((g.height : ℤ) - y - 1) * (g.width : ℤ) + x).toNat

/-- Rust Grid::draw_sand, the paint_cell of the spec: inside the bounds,
write the cell at index (x, y) and the cell color at pixel column x, row
height - y - 1 (linear row-major index (height - y - 1) * width + x), and
set the dirty flag; outside the bounds, do nothing. -/
def draw_sand (g : Grid) (x y : ℤ) (s : Sand) : Grid :=
  if 0 ≤ x ∧ x < (g.width : ℤ) ∧ 0 ≤ y ∧ y < (g.height : ℤ) then
    { g with
      data := g.data.set (g.index x y) s
      rgba := g.rgba.set ((g.height - y.toNat - 1) * g.width + x.toNat) s.color
      changed := true }
  else g

/-- Truncation toward zero, the Rust as-i32 cast on a finite float. -/
def truncToInt (q : ℚ) : ℤ := if 0 ≤ q then ⌊q⌋ else ⌈q⌉

/-- Rounding half away from zero, the Rust f32::round. -/
def roundHalfAway (q : ℚ) : ℤ := if 0 ≤ q then ⌊q + 1/2⌋ else ⌈q - 1/2⌉

/-- Round-to-nearest of the square root of a natural number, on integers:
the square root of a natural number is never exactly a half-integer, so no
tie arises. -/
def roundSqrt (n : ℕ) : ℕ :=
  if 4 * n < (2 * Nat.sqrt n + 1) ^ 2 then Nat.sqrt n else Nat.sqrt n + 1

/-- Inclusive integer range a..=b as a list, empty when b < a. -/
def intRange (a b : ℤ) : List ℤ :=
  (List.range (b + 1 - a).toNat).map (fun i : ℕ => a + (i : ℤ))

/-- Squared Euclidean distance between two integer points. -/
def distSq (p c : ℤ × ℤ) : ℕ := (((p.1 - c.1) ^ 2 + (p.2 - c.2) ^ 2)).toNat

/-- The test pos.distance(center).round() < radius.round() of
draw_sand_radius, on the exact-arithmetic model of the f32 computation. -/
def inDisc (c : ℤ × ℤ) (r : ℚ) (p : ℤ × ℤ) : Bool :=
  decide ((roundSqrt (distSq p c) : ℤ) < roundHalfAway r)

/-- Rust Grid::draw_sand_radius, the paint_radius of the spec: scan the
square of half-width trunc(radius) around the center and paint, through
draw_sand, every point whose rounded distance to the center is strictly
below the rounded radius. -/
def draw_sand_radius (g : Grid) (x y : ℤ) (t : SandType) (radius : ℚ) : Grid :=
  let yStart := y - truncToInt radius
  let yEnd := y + truncToInt radius
  let xStart := x - truncToInt radius
  let xEnd := x + truncToInt radius
  (intRange yStart yEnd).foldl
    (fun g1 py =>
      (intRange xStart xEnd).foldl
        (fun g2 px =>
          if inDisc (x, y) radius (px, py) then
            g2.draw_sand px py (Sand.from_type t (px, py))
          else g2)
        g1)
    g

/-- One inner iteration of Rust Grid::simulate at scan position (x, y):
rng is the stream of samples rand::random::<f32>() would produce and k
counts the samples drawn so far.  Reads of self.data (always guarded in
range by the scan and the neighbor checks) are modelled by getD. -/
def stepCell (g : Grid) (rng : ℕ → ℚ) (x y k : ℕ) : Grid × ℕ :=
  let curr := g.data.getD (g.index x y) Sand.empty
  if curr.sand.is_empty = false ∧ 0 ≤ (y : ℤ) - 1 then
    let below := (g.data.getD (g.index x ((y : ℤ) - 1)) Sand.empty).sand
    if below.is_empty then
      ((g.draw_sand x y Sand.empty).draw_sand x ((y : ℤ) - 1) curr, k)
    else
      let p := rng k
      if 1/2 < p ∧ 0 ≤ (x : ℤ) - 1 then
        let left_diag := (g.data.getD (g.index ((x : ℤ) - 1) ((y : ℤ) - 1)) Sand.empty).sand
        if left_diag.is_empty then
          ((g.draw_sand x y Sand.empty).draw_sand ((x : ℤ) - 1) ((y : ℤ) - 1) curr, k + 1)
        else (g, k + 1)
      else if (x : ℤ) + 1 < (g.width : ℤ) then
        let right_diag := (g.data.getD (g.index ((x : ℤ) + 1) ((y : ℤ) - 1)) Sand.empty).sand
        if right_diag.is_empty then
          ((g.draw_sand x y Sand.empty).draw_sand ((x : ℤ) + 1) ((y : ℤ) - 1) curr, k + 1)
        else (g, k + 1)
      else (g, k + 1)
  else (g, k)

/-- The scan order of Rust Grid::simulate: logical row y from 0 (bottom) to
height - 1, and within each row column x from 0 to width - 1. -/
def scanOrder (g : Grid) : List (ℕ × ℕ) :=
  (List.range g.height).flatMap (fun y => (List.range g.width).map (fun x => (x, y)))

/-- Rust Grid::simulate: one full-grid settling step, folding stepCell over
the scan order while threading the sample counter. -/
def simulate (g : Grid) (rng : ℕ → ℚ) : Grid :=
  (g.scanOrder.foldl (fun s pos => stepCell s.1 rng pos.1 pos.2 s.2) (g, 0)).1

/-- Rust Grid::update_texture, the sync_if_dirty of the spec: returns the
new grid together with the list of pixel buffers passed to the external
queue.write_texture upload, in call order. -/
def update_texture (g : Grid) : Grid × List (List Rgba) :=
  if g.changed then ({ g with changed := false }, [g.rgba]) else (g, [])

end Grid

/-- A mutation or sync operation on the grid, for reachability statements.
A sim operation carries the stream of random samples its step draws. -/
inductive Op where
  | paintCell (x y : ℤ) (s : Sand)
  | paintRadius (x y : ℤ) (t : SandType) (r : ℚ)
  | sim (rng : ℕ → ℚ)
  | sync

/-- Apply one operation to the grid. -/
def applyOp (g : Grid) : Op → Grid
  | .paintCell x y s => g.draw_sand x y s
  | .paintRadius x y t r => g.draw_sand_radius x y t r
  | .sim rng => g.simulate rng
  | .sync => (g.update_texture).1

/-- The grid reached from construction at the given dimensions by a sequence
of operations. -/
def runOps (w h : ℕ) (ops : List Op) : Grid :=
  ops.foldl applyOp (Grid.new w h)

/-- Well-formedness: the cell array and the pixel buffer both have exactly
width * height entries, as Grid::new establishes. -/
def Grid.WF (g : Grid) : Prop :=
  g.data.length = g.width * g.height ∧ g.rgba.length = g.width * g.height

/-- The pixel/cell synchronization property: at every linear index of the
grid, the pixel buffer holds the display color of the stored cell. -/
def Grid.Synced (g : Grid) : Prop :=
  ∀ i, i < g.width * g.height →
    g.rgba.getD i (0, 0, 0, 0) = (g.data.getD i Sand.empty).color

/-- The number of non-empty cells of the grid. -/
def Grid.countSand (g : Grid) : ℕ :=
  g.data.countP (fun s => !s.sand.is_empty)

/-- The scan order on positions: strictly earlier row, or same row and
strictly earlier column. -/
def scanLt (p q : ℕ × ℕ) : Prop :=
  p.2 < q.2 ∨ (p.2 = q.2 ∧ p.1 < q.1)

/-- A concrete non-empty sand cell used by the concrete examples. -/
def sandCell : Sand := ⟨SandType.sand, (194, 178, 128, 255)⟩

/-- The 3 x 3 grid of the gravity example: a single sand cell at logical
(1, 1), everything else empty. -/
def fallGrid : Grid := (Grid.new 3 3).draw_sand 1 1 sandCell

/-- The 3 x 2 grid of the diagonal-rule counterexample: sand at logical
(0, 0), (1, 0) and (1, 1); the down-left neighbor (0, 0) of (1, 1) is
occupied and the down-right neighbor (2, 0) is empty. -/
def blockedGrid : Grid :=
  (((Grid.new 3 2).draw_sand 0 0 sandCell).draw_sand 1 0 sandCell).draw_sand 1 1 sandCell

/-! Helper lemmas about list access, the index mapping, and draw_sand. -/

lemma getD_set_self {α : Type} {l : List α} {i : ℕ} (h : i < l.length) (a d : α) :
    (l.set i a).getD i d = a := by
  simp [List.getD_eq_getElem?_getD, List.getElem?_set, h]

lemma getD_set_ne {α : Type} {l : List α} {i j : ℕ} (hne : i ≠ j) (a d : α) :
    (l.set i a).getD j d = l.getD j d := by
  simp [List.getD_eq_getElem?_getD, List.getElem?_set, hne]

namespace Grid

lemma draw_sand_width (g : Grid) (x y : ℤ) (s : Sand) :
    (g.draw_sand x y s).width = g.width := by
  unfold draw_sand; split <;> rfl

lemma draw_sand_height (g : Grid) (x y : ℤ) (s : Sand) :
    (g.draw_sand x y s).height = g.height := by
  unfold draw_sand; split <;> rfl

lemma draw_sand_length_data (g : Grid) (x y : ℤ) (s : Sand) :
    (g.draw_sand x y s).data.length = g.data.length := by
  unfold draw_sand; split <;> simp

lemma draw_sand_length_rgba (g : Grid) (x y : ℤ) (s : Sand) :
    (g.draw_sand x y s).rgba.length = g.rgba.length := by
  unfold draw_sand; split <;> simp

lemma index_def_nat (g : Grid) (x y : ℕ) (hy : y < g.height) :
    g.index (x : ℤ) (y : ℤ) = (g.height - y - 1) * g.width + x := by
  unfold index
  have h1 : ((g.height : ℤ) - (y : ℤ) - 1) = ((g.height - y - 1 : ℕ) : ℤ) := by omega
  rw [h1, ← Nat.cast_mul, ← Nat.cast_add, Int.toNat_natCast]

lemma index_toNat (g : Grid) {x y : ℤ} (h0 : 0 ≤ x) (h2 : 0 ≤ y)
    (h3 : y < (g.height : ℤ)) :
    g.index x y = (g.height - y.toNat - 1) * g.width + x.toNat := by
  unfold index
  have h1 : ((g.height : ℤ) - y - 1) = ((g.height - y.toNat - 1 : ℕ) : ℤ) := by omega
  rw [h1, ← Int.toNat_of_nonneg h0, ← Nat.cast_mul, ← Nat.cast_add, Int.toNat_natCast]
  omega

lemma index_congr {g1 g2 : Grid} (hw : g1.width = g2.width)
    (hh : g1.height = g2.height) (x y : ℤ) : g1.index x y = g2.index x y := by
  unfold index; rw [hw, hh]

lemma draw_sand_pos (g : Grid) {x y : ℤ} (h0 : 0 ≤ x) (h1 : x < (g.width : ℤ))
    (h2 : 0 ≤ y) (h3 : y < (g.height : ℤ)) (s : Sand) :
    g.draw_sand x y s =
      { g with
        data := g.data.set (g.index x y) s
        rgba := g.rgba.set (g.index x y) s.color
        changed := true } := by
  unfold draw_sand
  rw [if_pos ⟨h0, h1, h2, h3⟩, ← index_toNat g h0 h2 h3]

lemma draw_sand_neg (g : Grid) {x y : ℤ}
    (h : ¬(0 ≤ x ∧ x < (g.width : ℤ) ∧ 0 ≤ y ∧ y < (g.height : ℤ))) (s : Sand) :
    g.draw_sand x y s = g := by
  unfold draw_sand; rw [if_neg h]

lemma nindex_lt {w h x y : ℕ} (hx : x < w) (hy : y < h) :
    (h - y - 1) * w + x < w * h := by
  obtain ⟨a, ha⟩ : ∃ a, h = a + y + 1 := ⟨h - y - 1, by omega⟩
  subst ha
  have h2 : a + y + 1 - y - 1 = a := by omega
  rw [h2]
  nlinarith

lemma index_lt (g : Grid) {x y : ℕ} (hx : x < g.width) (hy : y < g.height) :
    g.index (x : ℤ) (y : ℤ) < g.width * g.height := by
  rw [index_def_nat g x y hy]; exact nindex_lt hx hy

lemma index_lt_int (g : Grid) {x y : ℤ} (h0 : 0 ≤ x) (h1 : x < (g.width : ℤ))
    (h2 : 0 ≤ y) (h3 : y < (g.height : ℤ)) :
    g.index x y < g.width * g.height := by
  rw [index_toNat g h0 h2 h3]
  exact nindex_lt (by omega) (by omega)

lemma rowcol_inj {w a b x x2 : ℕ} (hx : x < w) (hx2 : x2 < w)
    (h : a * w + x = b * w + x2) : a = b ∧ x = x2 := by
  have hw : 0 < w := Nat.lt_of_le_of_lt (Nat.zero_le x) hx
  have ha : (a * w + x) / w = a := by
    rw [Nat.mul_comm, Nat.mul_add_div hw, Nat.div_eq_of_lt hx, Nat.add_zero]
  have hb : (b * w + x2) / w = b := by
    rw [Nat.mul_comm, Nat.mul_add_div hw, Nat.div_eq_of_lt hx2, Nat.add_zero]
  have hab : a = b := by rw [← ha, ← hb, h]
  subst hab
  exact ⟨rfl, by omega⟩

lemma index_inj (g : Grid) {x y x2 y2 : ℕ} (hx : x < g.width) (hy : y < g.height)
    (hx2 : x2 < g.width) (hy2 : y2 < g.height)
    (h : g.index (x : ℤ) (y : ℤ) = g.index (x2 : ℤ) (y2 : ℤ)) : x = x2 ∧ y = y2 := by
  rw [index_def_nat g x y hy, index_def_nat g x2 y2 hy2] at h
  obtain ⟨hrow, hcol⟩ := rowcol_inj hx hx2 h
  exact ⟨hcol, by omega⟩

lemma stepCell_shape (g : Grid) (rng : ℕ → ℚ) (x y k : ℕ) :
    (stepCell g rng x y k).1 = g ∨
    ∃ a : ℤ, (stepCell g rng x y k).1 =
      (g.draw_sand x y Sand.empty).draw_sand a ((y : ℤ) - 1)
        (g.data.getD (g.index x y) Sand.empty) := by
  unfold stepCell
  dsimp only
  split
  · split
    · exact Or.inr ⟨(x : ℤ), rfl⟩
    · split
      · split
        · exact Or.inr ⟨(x : ℤ) - 1, rfl⟩
        · exact Or.inl rfl
      · split
        · split
          · exact Or.inr ⟨(x : ℤ) + 1, rfl⟩
          · exact Or.inl rfl
        · exact Or.inl rfl
  · exact Or.inl rfl

lemma stepCell_width (g : Grid) (rng : ℕ → ℚ) (x y k : ℕ) :
    (stepCell g rng x y k).1.width = g.width := by
  rcases stepCell_shape g rng x y k with h | ⟨a, h⟩
  · rw [h]
  · rw [h, draw_sand_width, draw_sand_width]

lemma stepCell_height (g : Grid) (rng : ℕ → ℚ) (x y k : ℕ) :
    (stepCell g rng x y k).1.height = g.height := by
  rcases stepCell_shape g rng x y k with h | ⟨a, h⟩
  · rw [h]
  · rw [h, draw_sand_height, draw_sand_height]

lemma WF_draw_sand {g : Grid} (hW : g.WF) (x y : ℤ) (s : Sand) :
    (g.draw_sand x y s).WF := by
  obtain ⟨h1, h2⟩ := hW
  refine ⟨?_, ?_⟩ <;>
    rw [draw_sand_width, draw_sand_height] <;>
      [rw [draw_sand_length_data]; rw [draw_sand_length_rgba]] <;> assumption

lemma WF_stepCell {g : Grid} (hW : g.WF) (rng : ℕ → ℚ) (x y k : ℕ) :
    (stepCell g rng x y k).1.WF := by
  rcases stepCell_shape g rng x y k with h | ⟨a, h⟩
  · rw [h]; exact hW
  · rw [h]; exact WF_draw_sand (WF_draw_sand hW _ _ _) _ _ _

lemma Synced_draw_sand {g : Grid} (hW : g.WF) (hS : g.Synced) (x y : ℤ) (s : Sand) :
    (g.draw_sand x y s).Synced := by
  by_cases hb : 0 ≤ x ∧ x < (g.width : ℤ) ∧ 0 ≤ y ∧ y < (g.height : ℤ)
  · obtain ⟨h0, h1, h2, h3⟩ := hb
    rw [draw_sand_pos g h0 h1 h2 h3]
    intro i hi
    dsimp only at hi ⊢
    by_cases hij : g.index x y = i
    · subst hij
      rw [getD_set_self (by rw [hW.2]; exact index_lt_int g h0 h1 h2 h3),
        getD_set_self (by rw [hW.1]; exact index_lt_int g h0 h1 h2 h3)]
    · rw [getD_set_ne hij, getD_set_ne hij]
      exact hS i hi
  · rw [draw_sand_neg g hb]
    exact hS

lemma Synced_stepCell {g : Grid} (hW : g.WF) (hS : g.Synced) (rng : ℕ → ℚ)
    (x y k : ℕ) : (stepCell g rng x y k).1.Synced := by
  rcases stepCell_shape g rng x y k with h | ⟨a, h⟩
  · rw [h]; exact hS
  · rw [h]
    exact Synced_draw_sand (WF_draw_sand hW _ _ _)
      (Synced_draw_sand hW hS _ _ _) _ _ _

lemma mem_scanOrder {g : Grid} {p : ℕ × ℕ} :
    p ∈ g.scanOrder ↔ p.1 < g.width ∧ p.2 < g.height := by
  cases p with
  | mk px py =>
    simp only [scanOrder, List.mem_flatMap, List.mem_map, List.mem_range]
    constructor
    · rintro ⟨y, hy, x, hx, hxy⟩
      cases hxy
      exact ⟨hx, hy⟩
    · rintro ⟨h1, h2⟩
      exact ⟨py, h2, px, h1, rfl⟩

lemma foldl_stepCell_inv (w h : ℕ) (P : Grid → Prop)
    (hstep : ∀ g2 rng x y k, g2.width = w → g2.height = h → x < w → y < h →
      P g2 → P (stepCell g2 rng x y k).1)
    (rng : ℕ → ℚ) (l : List (ℕ × ℕ)) (hl : ∀ p ∈ l, p.1 < w ∧ p.2 < h)
    (s : Grid × ℕ) (hw : s.1.width = w) (hh : s.1.height = h) (hs : P s.1) :
    (l.foldl (fun s2 pos => stepCell s2.1 rng pos.1 pos.2 s2.2) s).1.width = w ∧
    (l.foldl (fun s2 pos => stepCell s2.1 rng pos.1 pos.2 s2.2) s).1.height = h ∧
    P (l.foldl (fun s2 pos => stepCell s2.1 rng pos.1 pos.2 s2.2) s).1 := by
  induction l generalizing s with
  | nil => exact ⟨hw, hh, hs⟩
  | cons p t ih =>
    have hp := hl p (List.mem_cons_self p t)
    have hfor : ∀ q ∈ t, q.1 < w ∧ q.2 < h := fun q hq => hl q (List.mem_cons_of_mem _ hq)
    rw [List.foldl_cons]
    refine ih hfor _ ?_ ?_ ?_
    · rw [stepCell_width, hw]
    · rw [stepCell_height, hh]
    · exact hstep _ _ _ _ _ hw hh hp.1 hp.2 hs

lemma simulate_inv (P : Grid → Prop)
    (hstep : ∀ (g2 : Grid) (rng : ℕ → ℚ) (x y k : ℕ), x < g2.width → y < g2.height →
      P g2 → P (stepCell g2 rng x y k).1)
    (g : Grid) (rng : ℕ → ℚ) (hP : P g) : P (g.simulate rng) := by
  unfold simulate
  refine (foldl_stepCell_inv g.width g.height P ?_ rng g.scanOrder ?_ (g, 0) rfl rfl hP).2.2
  · intro g2 rng2 x y k hw hh hx hy hP2
    exact hstep g2 rng2 x y k (hw ▸ hx) (hh ▸ hy) hP2
  · intro p hp
    exact (mem_scanOrder).1 hp

lemma WF_simulate {g : Grid} (hW : g.WF) (rng : ℕ → ℚ) : (g.simulate rng).WF := by
  refine simulate_inv Grid.WF ?_ g rng hW
  intro g2 rng2 x y k _ _ hW2
  exact WF_stepCell hW2 rng2 x y k

lemma simulate_width (g : Grid) (rng : ℕ → ℚ) : (g.simulate rng).width = g.width := by
  unfold simulate
  exact (foldl_stepCell_inv g.width g.height (fun _ => True)
    (fun _ _ _ _ _ _ _ _ _ _ => trivial) rng g.scanOrder
    (fun p hp => (mem_scanOrder).1 hp) (g, 0) rfl rfl trivial).1

lemma simulate_height (g : Grid) (rng : ℕ → ℚ) : (g.simulate rng).height = g.height := by
  unfold simulate
  exact (foldl_stepCell_inv g.width g.height (fun _ => True)
    (fun _ _ _ _ _ _ _ _ _ _ => trivial) rng g.scanOrder
    (fun p hp => (mem_scanOrder).1 hp) (g, 0) rfl rfl trivial).2.1

lemma simulate_preserve (P : Grid → Prop)
    (hstep : ∀ (g2 : Grid) (rng2 : ℕ → ℚ) (x y k : ℕ), P g2 → P (stepCell g2 rng2 x y k).1)
    (g : Grid) (rng : ℕ → ℚ) (hg : P g) : P (g.simulate rng) := by
  unfold simulate
  have main : ∀ (l : List (ℕ × ℕ)) (s : Grid × ℕ), P s.1 →
      P ((l.foldl (fun s2 pos => stepCell s2.1 rng pos.1 pos.2 s2.2) s).1) := by
    intro l
    induction l with
    | nil => intro s hs; exact hs
    | cons p t ih => intro s hs; exact ih _ (hstep _ _ _ _ _ hs)
  exact main _ (g, 0) hg

lemma stepCell_skip_empty {g : Grid} {x y : ℕ} (rng : ℕ → ℚ) (k : ℕ)
    (h : (g.data.getD (g.index (x : ℤ) (y : ℤ)) Sand.empty).sand.is_empty = true) :
    stepCell g rng x y k = (g, k) := by
  unfold stepCell
  dsimp only
  rw [if_neg]
  rintro ⟨hc, _⟩
  rw [h] at hc
  cases hc

lemma stepCell_bottom (g : Grid) (rng : ℕ → ℚ) (x k : ℕ) :
    stepCell g rng x 0 k = (g, k) := by
  unfold stepCell
  dsimp only
  rw [if_neg]
  rintro ⟨_, hy⟩
  omega

lemma stepCell_fall {g : Grid} (rng : ℕ → ℚ) {x y : ℕ} (k : ℕ) (hy : 1 ≤ y)
    (hcurr : (g.data.getD (g.index (x : ℤ) (y : ℤ)) Sand.empty).sand.is_empty = false)
    (hbelow : (g.data.getD (g.index (x : ℤ) ((y : ℤ) - 1)) Sand.empty).sand.is_empty = true) :
    stepCell g rng x y k =
      ((g.draw_sand x y Sand.empty).draw_sand x ((y : ℤ) - 1)
        (g.data.getD (g.index (x : ℤ) (y : ℤ)) Sand.empty), k) := by
  unfold stepCell
  dsimp only
  rw [if_pos ⟨hcurr, by omega⟩, if_pos hbelow]

lemma draw_sand_frame_ne {g : Grid} {x y : ℤ} (s : Sand) {x2 y2 : ℕ}
    (hx2 : x2 < g.width) (hy2 : y2 < g.height)
    (hne : ¬(x = (x2 : ℤ) ∧ y = (y2 : ℤ))) :
    (g.draw_sand x y s).data.getD (g.index (x2 : ℤ) (y2 : ℤ)) Sand.empty
      = g.data.getD (g.index (x2 : ℤ) (y2 : ℤ)) Sand.empty ∧
    (g.draw_sand x y s).rgba.getD (g.index (x2 : ℤ) (y2 : ℤ)) (0, 0, 0, 0)
      = g.rgba.getD (g.index (x2 : ℤ) (y2 : ℤ)) (0, 0, 0, 0) := by
  by_cases hb : 0 ≤ x ∧ x < (g.width : ℤ) ∧ 0 ≤ y ∧ y < (g.height : ℤ)
  · obtain ⟨h0, h1, h2, h3⟩ := hb
    rw [draw_sand_pos g h0 h1 h2 h3]
    dsimp only
    have hidx : g.index x y ≠ g.index (x2 : ℤ) (y2 : ℤ) := by
      intro hEq
      have hxx : x = ((x.toNat : ℕ) : ℤ) := by omega
      have hyy : y = ((y.toNat : ℕ) : ℤ) := by omega
      rw [hxx, hyy] at hEq
      obtain ⟨e1, e2⟩ := index_inj g (by omega) (by omega) hx2 hy2 hEq
      exact hne ⟨by omega, by omega⟩
    exact ⟨getD_set_ne hidx _ _, getD_set_ne hidx _ _⟩
  · rw [draw_sand_neg g hb]
    exact ⟨rfl, rfl⟩

lemma stepCell_frame_row (g : Grid) (rng : ℕ → ℚ) (x y k : ℕ) {x2 y2 : ℕ}
    (hx2 : x2 < g.width) (hy2 : y2 < g.height) (hny : y2 ≠ y) (hny1 : y2 + 1 ≠ y) :
    (stepCell g rng x y k).1.data.getD (g.index (x2 : ℤ) (y2 : ℤ)) Sand.empty
      = g.data.getD (g.index (x2 : ℤ) (y2 : ℤ)) Sand.empty ∧
    (stepCell g rng x y k).1.rgba.getD (g.index (x2 : ℤ) (y2 : ℤ)) (0, 0, 0, 0)
      = g.rgba.getD (g.index (x2 : ℤ) (y2 : ℤ)) (0, 0, 0, 0) := by
  rcases stepCell_shape g rng x y k with h | ⟨a, h⟩
  · rw [h]; exact ⟨rfl, rfl⟩
  · rw [h]
    set g1 := g.draw_sand (x : ℤ) (y : ℤ) Sand.empty with hg1
    have hw1 : g1.width = g.width := draw_sand_width g _ _ _
    have hh1 : g1.height = g.height := draw_sand_height g _ _ _
    have hidx1 : g1.index (x2 : ℤ) (y2 : ℤ) = g.index (x2 : ℤ) (y2 : ℤ) :=
      index_congr hw1 hh1 _ _
    have houter := @draw_sand_frame_ne g1 a ((y : ℤ) - 1)
      (g.data.getD (g.index (x : ℤ) (y : ℤ)) Sand.empty)
      x2 y2 (by omega) (by omega)
      (by rintro ⟨_, h2⟩; omega)
    have hinner := @draw_sand_frame_ne g (x : ℤ) (y : ℤ)
      Sand.empty x2 y2 hx2 hy2 (by rintro ⟨_, h2⟩; omega)
    rw [hidx1] at houter
    exact ⟨houter.1.trans hinner.1, houter.2.trans hinner.2⟩

lemma scanOrder_pairwise (g : Grid) : List.Pairwise scanLt g.scanOrder := by
  unfold scanOrder
  rw [List.pairwise_flatMap]
  constructor
  · intro y hy
    rw [List.pairwise_map]
    exact (List.pairwise_lt_range g.width).imp (fun h => Or.inr ⟨rfl, h⟩)
  · refine (List.pairwise_lt_range g.height).imp ?_
    intro y1 y2 h12 p hp q hq
    simp only [List.mem_map, List.mem_range] at hp hq
    obtain ⟨x1, _, rfl⟩ := hp
    obtain ⟨xq, _, rfl⟩ := hq
    exact Or.inl h12

lemma scanOrder_nodup (g : Grid) : g.scanOrder.Nodup := by
  refine (scanOrder_pairwise g).imp ?_
  intro p q h hEq
  subst hEq
  rcases h with h | ⟨h1, h2⟩ <;> omega

lemma new_WF (w h : ℕ) : (Grid.new w h).WF := by
  constructor <;> simp [Grid.new]

lemma new_Synced (w h : ℕ) : (Grid.new w h).Synced := by
  intro i hi
  unfold Grid.new
  dsimp only
  rw [List.getD_eq_getElem _ _ (by simpa using hi),
    List.getD_eq_getElem _ _ (by simpa using hi),
    List.getElem_replicate, List.getElem_replicate]
  rfl

lemma update_texture_fst (g : Grid) :
    (g.update_texture).1.data = g.data ∧ (g.update_texture).1.rgba = g.rgba ∧
    (g.update_texture).1.width = g.width ∧ (g.update_texture).1.height = g.height := by
  unfold update_texture
  split <;> exact ⟨rfl, rfl, rfl, rfl⟩

end Grid

/-- Generic preservation of a grid property along a foldl. -/
lemma foldl_preserve {α : Type} (P : Grid → Prop) (f : Grid → α → Grid)
    (hstep : ∀ g a, P g → P (f g a)) (l : List α) (g : Grid) (hg : P g) :
    P (l.foldl f g) := by
  induction l generalizing g with
  | nil => exact hg
  | cons a t ih => exact ih _ (hstep _ _ hg)

lemma radius_preserve (P : Grid → Prop)
    (hdraw : ∀ (g : Grid) (x y : ℤ) (s : Sand), P g → P (g.draw_sand x y s))
    (g : Grid) (x y : ℤ) (t : SandType) (r : ℚ) (hg : P g) :
    P (g.draw_sand_radius x y t r) := by
  unfold Grid.draw_sand_radius
  refine foldl_preserve P _ ?_ _ _ hg
  intro g1 py hP1
  refine foldl_preserve P _ ?_ _ _ hP1
  intro g2 px hP2
  split
  · exact hdraw _ _ _ _ hP2
  · exact hP2

lemma applyOp_preserve (P : Grid → Prop)
    (hdraw : ∀ (g : Grid) (x y : ℤ) (s : Sand), P g → P (g.draw_sand x y s))
    (hsync : ∀ g : Grid, P g → P (g.update_texture).1)
    (g : Grid) (op : Op) (hg : P g) : P (applyOp g op) := by
  cases op with
  | paintCell x y s => exact hdraw g x y s hg
  | paintRadius x y t r => exact radius_preserve P hdraw g x y t r hg
  | sim rng =>
    refine Grid.simulate_preserve P ?_ g rng hg
    intro g2 rng2 x y k hP2
    rcases Grid.stepCell_shape g2 rng2 x y k with h | ⟨a, h⟩
    · rw [h]; exact hP2
    · rw [h]; exact hdraw _ _ _ _ (hdraw _ _ _ _ hP2)
  | sync => exact hsync g hg

lemma stepCell_of_all_empty {g : Grid} (hE : ∀ s ∈ g.data, s.sand.is_empty = true)
    (rng : ℕ → ℚ) (x y k : ℕ) : Grid.stepCell g rng x y k = (g, k) := by
  apply Grid.stepCell_skip_empty
  rcases Nat.lt_or_ge (g.index (x : ℤ) (y : ℤ)) g.data.length with hlt | hge
  · rw [List.getD_eq_getElem _ _ hlt]
    exact hE _ (List.getElem_mem hlt)
  · rw [List.getD_eq_default _ _ hge]
    rfl

/-- Unfolding one step of the simulate fold when the step result is known. -/
lemma foldl_step (rng : ℕ → ℚ) (g g2 : Grid) (k k2 : ℕ) (p : ℕ × ℕ) (t : List (ℕ × ℕ))
    (h : Grid.stepCell g rng p.1 p.2 k = (g2, k2)) :
    ((p :: t).foldl (fun s2 pos => Grid.stepCell s2.1 rng pos.1 pos.2 s2.2) (g, k))
      = t.foldl (fun s2 pos => Grid.stepCell s2.1 rng pos.1 pos.2 s2.2) (g2, k2) := by
  rw [List.foldl_cons]
  show t.foldl _ (Grid.stepCell g rng p.1 p.2 k) = _
  rw [h]

/-- Concrete evaluation of one simulate step on fallGrid, for an arbitrary
random stream: the single sand cell at (1, 1) falls straight down, no random
sample is consumed. -/
lemma simulate_fallGrid (rng : ℕ → ℚ) :
    fallGrid.simulate rng =
      (fallGrid.draw_sand 1 1 Sand.empty).draw_sand 1 0 sandCell := by
  have hso : fallGrid.scanOrder =
      [(0,0),(1,0),(2,0),(0,1),(1,1),(2,1),(0,2),(1,2),(2,2)] := by decide
  unfold Grid.simulate
  rw [hso]
  rw [foldl_step rng _ _ _ _ (0,0) _ (Grid.stepCell_bottom fallGrid rng 0 0)]
  rw [foldl_step rng _ _ _ _ (1,0) _ (Grid.stepCell_bottom fallGrid rng 1 0)]
  rw [foldl_step rng _ _ _ _ (2,0) _ (Grid.stepCell_bottom fallGrid rng 2 0)]
  rw [foldl_step rng _ _ _ _ (0,1) _
    (@Grid.stepCell_skip_empty fallGrid 0 1 rng 0 (by decide))]
  rw [foldl_step rng _ _ _ _ (1,1) _
    (@Grid.stepCell_fall fallGrid rng 1 1 0 (by decide) (by decide) (by decide))]
  have hg2 : (fallGrid.draw_sand ((1:ℕ):ℤ) ((1:ℕ):ℤ) Sand.empty).draw_sand ((1:ℕ):ℤ)
      (((1:ℕ):ℤ) - 1) (fallGrid.data.getD (fallGrid.index ((1:ℕ):ℤ) ((1:ℕ):ℤ)) Sand.empty)
      = (fallGrid.draw_sand 1 1 Sand.empty).draw_sand 1 0 sandCell := by decide
  rw [hg2]
  rw [foldl_step rng _ _ _ _ (2,1) _
    (@Grid.stepCell_skip_empty ((fallGrid.draw_sand 1 1 Sand.empty).draw_sand 1 0 sandCell)
      2 1 rng 0 (by decide))]
  rw [foldl_step rng _ _ _ _ (0,2) _
    (@Grid.stepCell_skip_empty ((fallGrid.draw_sand 1 1 Sand.empty).draw_sand 1 0 sandCell)
      0 2 rng 0 (by decide))]
  rw [foldl_step rng _ _ _ _ (1,2) _
    (@Grid.stepCell_skip_empty ((fallGrid.draw_sand 1 1 Sand.empty).draw_sand 1 0 sandCell)
      1 2 rng 0 (by decide))]
  rw [foldl_step rng _ _ _ _ (2,2) _
    (@Grid.stepCell_skip_empty ((fallGrid.draw_sand 1 1 Sand.empty).draw_sand 1 0 sandCell)
      2 2 rng 0 (by decide))]
  rfl

/-- Evaluation of stepCell when the cell below is occupied, the sample is
above one half and the down-left neighbor exists: only the down-left
neighbor is consulted.  Case where it is empty: the cell moves down-left. -/
lemma stepCell_move_left {g : Grid} (rng : ℕ → ℚ) {x y : ℕ} (k : ℕ) (hy : 1 ≤ y)
    (hcurr : (g.data.getD (g.index (x : ℤ) (y : ℤ)) Sand.empty).sand.is_empty = false)
    (hbelow : (g.data.getD (g.index (x : ℤ) ((y : ℤ) - 1)) Sand.empty).sand.is_empty = false)
    (hp : 1/2 < rng k) (hx : 1 ≤ x)
    (hleft : (g.data.getD (g.index ((x : ℤ) - 1) ((y : ℤ) - 1)) Sand.empty).sand.is_empty
      = true) :
    Grid.stepCell g rng x y k =
      ((g.draw_sand (x : ℤ) (y : ℤ) Sand.empty).draw_sand ((x : ℤ) - 1) ((y : ℤ) - 1)
        (g.data.getD (g.index (x : ℤ) (y : ℤ)) Sand.empty), k + 1) := by
  unfold Grid.stepCell
  dsimp only
  rw [if_pos ⟨hcurr, by omega⟩, if_neg (by rw [hbelow]; exact Bool.false_ne_true),
    if_pos ⟨hp, by omega⟩, if_pos hleft]

/-- Case where the down-left neighbor is occupied: the cell does not move
and the down-right neighbor is never consulted. -/
lemma stepCell_blocked_left {g : Grid} (rng : ℕ → ℚ) {x y : ℕ} (k : ℕ) (hy : 1 ≤ y)
    (hcurr : (g.data.getD (g.index (x : ℤ) (y : ℤ)) Sand.empty).sand.is_empty = false)
    (hbelow : (g.data.getD (g.index (x : ℤ) ((y : ℤ) - 1)) Sand.empty).sand.is_empty = false)
    (hp : 1/2 < rng k) (hx : 1 ≤ x)
    (hleft : (g.data.getD (g.index ((x : ℤ) - 1) ((y : ℤ) - 1)) Sand.empty).sand.is_empty
      = false) :
    Grid.stepCell g rng x y k = (g, k + 1) := by
  unfold Grid.stepCell
  dsimp only
  rw [if_pos ⟨hcurr, by omega⟩, if_neg (by rw [hbelow]; exact Bool.false_ne_true),
    if_pos ⟨hp, by omega⟩, if_neg (by rw [hleft]; exact Bool.false_ne_true)]

/-- Evaluation of stepCell when the cell below is occupied and the down-left
branch is not taken (low sample or no down-left neighbor): the down-right
neighbor is consulted.  Case where it exists and is empty: move down-right. -/
lemma stepCell_move_right {g : Grid} (rng : ℕ → ℚ) {x y : ℕ} (k : ℕ) (hy : 1 ≤ y)
    (hcurr : (g.data.getD (g.index (x : ℤ) (y : ℤ)) Sand.empty).sand.is_empty = false)
    (hbelow : (g.data.getD (g.index (x : ℤ) ((y : ℤ) - 1)) Sand.empty).sand.is_empty = false)
    (hnp : ¬(1/2 < rng k ∧ 1 ≤ x)) (hxw : (x : ℤ) + 1 < (g.width : ℤ))
    (hright : (g.data.getD (g.index ((x : ℤ) + 1) ((y : ℤ) - 1)) Sand.empty).sand.is_empty
      = true) :
    Grid.stepCell g rng x y k =
      ((g.draw_sand (x : ℤ) (y : ℤ) Sand.empty).draw_sand ((x : ℤ) + 1) ((y : ℤ) - 1)
        (g.data.getD (g.index (x : ℤ) (y : ℤ)) Sand.empty), k + 1) := by
  unfold Grid.stepCell
  dsimp only
  rw [if_pos ⟨hcurr, by omega⟩, if_neg (by rw [hbelow]; exact Bool.false_ne_true),
    if_neg (fun hc => hnp ⟨hc.1, by omega⟩), if_pos hxw, if_pos hright]

/-- Case where the down-right diagonal does not apply either: no move. -/
lemma stepCell_no_move_right {g : Grid} (rng : ℕ → ℚ) {x y : ℕ} (k : ℕ) (hy : 1 ≤ y)
    (hcurr : (g.data.getD (g.index (x : ℤ) (y : ℤ)) Sand.empty).sand.is_empty = false)
    (hbelow : (g.data.getD (g.index (x : ℤ) ((y : ℤ) - 1)) Sand.empty).sand.is_empty = false)
    (hnp : ¬(1/2 < rng k ∧ 1 ≤ x))
    (hnr : ¬((x : ℤ) + 1 < (g.width : ℤ) ∧
      (g.data.getD (g.index ((x : ℤ) + 1) ((y : ℤ) - 1)) Sand.empty).sand.is_empty = true)) :
    Grid.stepCell g rng x y k = (g, k + 1) := by
  unfold Grid.stepCell
  dsimp only
  rw [if_pos ⟨hcurr, by omega⟩, if_neg (by rw [hbelow]; exact Bool.false_ne_true),
    if_neg (fun hc => hnp ⟨hc.1, by omega⟩)]
  by_cases hxw : (x : ℤ) + 1 < (g.width : ℤ)
  · rw [if_pos hxw, if_neg (fun hr => hnr ⟨hxw, hr⟩)]
  · rw [if_neg hxw]

/-- Exactly one random sample is drawn whenever the current cell is non-empty,
not in the bottom row, and the cell below is occupied. -/
lemma stepCell_snd_below_occupied {g : Grid} (rng : ℕ → ℚ) {x y : ℕ} (k : ℕ) (hy : 1 ≤ y)
    (hcurr : (g.data.getD (g.index (x : ℤ) (y : ℤ)) Sand.empty).sand.is_empty = false)
    (hbelow : (g.data.getD (g.index (x : ℤ) ((y : ℤ) - 1)) Sand.empty).sand.is_empty
      = false) :
    (Grid.stepCell g rng x y k).2 = k + 1 := by
  unfold Grid.stepCell
  dsimp only
  rw [if_pos ⟨hcurr, by omega⟩, if_neg (by rw [hbelow]; exact Bool.false_ne_true)]
  split
  · split <;> rfl
  · split
    · split <;> rfl
    · rfl

/-- C5: during one simulate step, a non-empty cell not in the bottom row
whose cell directly below is empty when the scan reaches it is swapped down
(the cell moves one row down and leaves an empty cell behind); in particular
on the 3 x 3 grid with a single sand cell at logical (1, 1), one simulate
call moves the cell to (1, 0) and leaves (1, 1) empty, deterministically for
every value of the random source. -/
theorem C5_gravity_swap_down :
    (∀ (g : Grid) (rng : ℕ → ℚ) (x y k : ℕ), 1 ≤ y →
      (g.data.getD (g.index (x : ℤ) (y : ℤ)) Sand.empty).sand.is_empty = false →
      (g.data.getD (g.index (x : ℤ) ((y : ℤ) - 1)) Sand.empty).sand.is_empty = true →
      Grid.stepCell g rng x y k =
        ((g.draw_sand (x : ℤ) (y : ℤ) Sand.empty).draw_sand (x : ℤ) ((y : ℤ) - 1)
          (g.data.getD (g.index (x : ℤ) (y : ℤ)) Sand.empty), k)) ∧
    (∀ rng : ℕ → ℚ,
      (fallGrid.simulate rng).data.getD ((fallGrid.simulate rng).index 1 0) Sand.empty
          = sandCell ∧
      (fallGrid.simulate rng).data.getD ((fallGrid.simulate rng).index 1 1) Sand.empty
          = Sand.empty) := by
  constructor
  · intro g rng x y k hy hcurr hbelow
    exact Grid.stepCell_fall rng k hy hcurr hbelow
  · intro rng
    rw [simulate_fallGrid rng]
    exact ⟨by decide, by decide⟩

/-- C5 witness: the swap-down rule applied on the concrete grid fallGrid. -/
theorem C5_gravity_swap_down_witness :
    Grid.stepCell fallGrid (fun _ => 0) 1 1 0 =
      ((fallGrid.draw_sand ((1:ℕ):ℤ) ((1:ℕ):ℤ) Sand.empty).draw_sand ((1:ℕ):ℤ)
        (((1:ℕ):ℤ) - 1)
        (fallGrid.data.getD (fallGrid.index ((1:ℕ):ℤ) ((1:ℕ):ℤ)) Sand.empty), 0) :=
  C5_gravity_swap_down.1 fallGrid (fun _ => 0) 1 1 0 (by decide) (by decide) (by decide)

/-- C3: for every in-bounds coordinate (x, y) and every cell value s, after
draw_sand (paint_cell), the cell at linear index (height - y - 1) * width + x
equals s, the pixel buffer at the same mapped index (column x of row
height - y - 1) equals the display color of s, and the dirty flag is set. -/
theorem C3_paint_cell_in_bounds (g : Grid) (x y : ℕ) (s : Sand) (hW : g.WF)
    (hx : x < g.width) (hy : y < g.height) :
    (g.draw_sand (x : ℤ) (y : ℤ) s).data.getD ((g.height - y - 1) * g.width + x) Sand.empty = s ∧
    (g.draw_sand (x : ℤ) (y : ℤ) s).rgba.getD ((g.height - y - 1) * g.width + x) (0, 0, 0, 0)
      = s.color ∧
    (g.draw_sand (x : ℤ) (y : ℤ) s).changed = true := by
  have h0 : (0 : ℤ) ≤ (x : ℤ) := by omega
  have h1 : (x : ℤ) < (g.width : ℤ) := by omega
  have h2 : (0 : ℤ) ≤ (y : ℤ) := by omega
  have h3 : (y : ℤ) < (g.height : ℤ) := by omega
  rw [Grid.draw_sand_pos g h0 h1 h2 h3]
  dsimp only
  rw [← Grid.index_def_nat g x y hy]
  refine ⟨?_, ?_, rfl⟩
  · exact getD_set_self (by rw [hW.1]; exact Grid.index_lt g hx hy) _ _
  · exact getD_set_self (by rw [hW.2]; exact Grid.index_lt g hx hy) _ _

/-- C3 witness: the postcondition instantiated on a concrete grid. -/
theorem C3_paint_cell_in_bounds_witness :
    ((Grid.new 2 2).draw_sand 0 1 sandCell).data.getD ((2 - 1 - 1) * 2 + 0) Sand.empty
        = sandCell ∧
    ((Grid.new 2 2).draw_sand 0 1 sandCell).rgba.getD ((2 - 1 - 1) * 2 + 0) (0, 0, 0, 0)
        = sandCell.color ∧
    ((Grid.new 2 2).draw_sand 0 1 sandCell).changed = true :=
  C3_paint_cell_in_bounds (Grid.new 2 2) 0 1 sandCell (Grid.new_WF 2 2)
    (by decide) (by decide)

/-- C7: for every out-of-bounds coordinate (x < 0, x >= width, y < 0 or
y >= height) and every cell value, draw_sand (paint_cell) returns the grid
exactly as it was: same cell array, same pixel buffer, same dirty flag, and
no error is raised (the operation is total). -/
theorem C7_paint_cell_out_of_bounds (g : Grid) (x y : ℤ) (s : Sand)
    (h : x < 0 ∨ (g.width : ℤ) ≤ x ∨ y < 0 ∨ (g.height : ℤ) ≤ y) :
    g.draw_sand x y s = g := by
  apply Grid.draw_sand_neg
  rintro ⟨h0, h1, h2, h3⟩
  rcases h with h | h | h | h <;> omega

/-- C7 witness: painting at x = 5 on a 3 x 3 grid changes nothing. -/
theorem C7_paint_cell_out_of_bounds_witness :
    (Grid.new 3 3).draw_sand 5 1 sandCell = Grid.new 3 3 :=
  C7_paint_cell_out_of_bounds (Grid.new 3 3) 5 1 sandCell (Or.inr (Or.inl (by decide)))

/-- C8: update_texture (sync_if_dirty) uploads the full pixel buffer exactly
once and clears the flag when the grid is dirty, is a no-op with zero uploads
when it is clean, and a second consecutive call always uploads zero times. -/
theorem C8_sync_if_dirty (g : Grid) :
    (g.changed = true →
      (g.update_texture).2 = [g.rgba] ∧
      (g.update_texture).1 = { g with changed := false }) ∧
    (g.changed = false → g.update_texture = (g, [])) ∧
    ((g.update_texture).1.update_texture).2 = [] := by
  cases hc : g.changed <;> simp [Grid.update_texture, hc]

/-- C8 witness: on the dirty concrete grid fallGrid the first sync uploads
its pixel buffer once and the following sync uploads nothing. -/
theorem C8_sync_if_dirty_witness :
    (fallGrid.update_texture).2 = [fallGrid.rgba] ∧
    ((fallGrid.update_texture).1.update_texture).2 = [] := by
  have h := C8_sync_if_dirty fallGrid
  exact ⟨(h.1 (by decide)).1, h.2.2⟩

/-- C10: simulate on a grid whose cells are all empty changes no cell, no
pixel and no flag (it returns the grid unchanged), for every value of the
random source. -/
theorem C10_simulate_empty_identity (g : Grid) (rng : ℕ → ℚ)
    (hE : ∀ s ∈ g.data, s.sand.is_empty = true) :
    g.simulate rng = g := by
  unfold Grid.simulate
  have main : ∀ (l : List (ℕ × ℕ)) (k : ℕ),
      l.foldl (fun s2 pos => Grid.stepCell s2.1 rng pos.1 pos.2 s2.2) (g, k) = (g, k) := by
    intro l
    induction l with
    | nil => intro k; rfl
    | cons p t ih =>
      intro k
      rw [List.foldl_cons]
      show t.foldl _ (Grid.stepCell g rng p.1 p.2 k) = (g, k)
      rw [stepCell_of_all_empty hE]
      exact ih k
  rw [main g.scanOrder 0]

/-- C10 witness: one simulate step on a freshly constructed 2 x 2 grid is
the identity. -/
theorem C10_simulate_empty_identity_witness :
    (Grid.new 2 2).simulate (fun _ => 0) = Grid.new 2 2 :=
  C10_simulate_empty_identity (Grid.new 2 2) (fun _ => 0) (by decide)

/-- Distinct in-bounds logical coordinates map to distinct linear indices. -/
lemma index_ne_of_ne {g : Grid} {x y x2 y2 : ℕ} (hx : x < g.width) (hy : y < g.height)
    (hx2 : x2 < g.width) (hy2 : y2 < g.height) (hne : ¬(x = x2 ∧ y = y2)) :
    g.index (x : ℤ) (y : ℤ) ≠ g.index (x2 : ℤ) (y2 : ℤ) := by
  intro h
  obtain ⟨e1, e2⟩ := Grid.index_inj g hx hy hx2 hy2 h
  exact hne ⟨e1, e2⟩

/-- List form of a move: set the source to the empty cell and an empty
destination to the old source value; the non-empty count is unchanged. -/
lemma countP_move {l : List Sand} {i j : ℕ} (hi : i < l.length) (hj : j < l.length)
    (hne : j ≠ i) (hdest : l[j].sand.is_empty = true) (c : Sand)
    (hc : c = l[i]) :
    List.countP (fun s => !s.sand.is_empty) ((l.set i Sand.empty).set j c)
      = List.countP (fun s => !s.sand.is_empty) l := by
  rw [List.countP_set _ _ _ _ (by simpa using hj), List.countP_set _ _ _ _ hi,
    List.getElem_set_ne (Ne.symm hne)]
  have hdfalse : (!l[j].sand.is_empty) = false := by simp [hdest]
  have hbound : (if (fun s => !s.sand.is_empty) l[i] = true then 1 else 0)
      ≤ List.countP (fun s => !s.sand.is_empty) l := by
    split
    · refine List.countP_pos_iff.2 ⟨l[i], List.getElem_mem hi, ?_⟩
      assumption
    · exact Nat.zero_le _
  subst hc
  have h0e : (if (fun s => !s.sand.is_empty) Sand.empty = true then 1 else 0) = 0 := rfl
  have h0j : (if (fun s => !s.sand.is_empty) l[j] = true then 1 else 0) = 0 := by
    simp [hdfalse]
  rw [h0e, h0j]
  by_cases hcase : (fun s => !s.sand.is_empty) l[i] = true
  · rw [if_pos hcase] at hbound ⊢
    omega
  · rw [if_neg hcase]
    omega

/-- A move (paint the source empty, paint an empty destination with the
source cell read before the move) preserves the number of non-empty cells. -/
lemma countSand_draw_draw {g : Grid} (hW : g.WF) {x y : ℕ} {a b : ℤ}
    (hx : x < g.width) (hy : y < g.height)
    (h0 : 0 ≤ a) (h1 : a < (g.width : ℤ)) (h2 : 0 ≤ b) (h3 : b < (g.height : ℤ))
    (hne : g.index a b ≠ g.index (x : ℤ) (y : ℤ))
    (hdest : (g.data.getD (g.index a b) Sand.empty).sand.is_empty = true) :
    ((g.draw_sand (x : ℤ) (y : ℤ) Sand.empty).draw_sand a b
      (g.data.getD (g.index (x : ℤ) (y : ℤ)) Sand.empty)).countSand = g.countSand := by
  have hx0 : (0 : ℤ) ≤ (x : ℤ) := by omega
  have hx1 : (x : ℤ) < (g.width : ℤ) := by omega
  have hy0 : (0 : ℤ) ≤ (y : ℤ) := by omega
  have hy1 : (y : ℤ) < (g.height : ℤ) := by omega
  have hi : g.index (x : ℤ) (y : ℤ) < g.data.length := by
    rw [hW.1]; exact Grid.index_lt g hx hy
  have hj : g.index a b < g.data.length := by
    rw [hW.1]; exact Grid.index_lt_int g h0 h1 h2 h3
  have hcurr : g.data.getD (g.index (x : ℤ) (y : ℤ)) Sand.empty
      = g.data[g.index (x : ℤ) (y : ℤ)] := List.getD_eq_getElem _ _ hi
  have hdestel : (g.data[g.index a b]).sand.is_empty = true := by
    rw [← List.getD_eq_getElem _ Sand.empty hj]
    exact hdest
  rw [Grid.draw_sand_pos g hx0 hx1 hy0 hy1]
  rw [Grid.draw_sand_pos
    ⟨g.data.set (g.index (x : ℤ) (y : ℤ)) Sand.empty,
     g.rgba.set (g.index (x : ℤ) (y : ℤ)) Sand.empty.color,
     g.width, g.height, true⟩ h0 h1 h2 h3]
  exact countP_move hi hj hne hdestel _ hcurr

/-- One inner scan step preserves the number of non-empty cells. -/
lemma stepCell_countSand {g : Grid} (rng : ℕ → ℚ) {x y : ℕ} (k : ℕ) (hW : g.WF)
    (hx : x < g.width) (hy : y < g.height) :
    (Grid.stepCell g rng x y k).1.countSand = g.countSand := by
  unfold Grid.stepCell
  dsimp only
  split
  · next hcond =>
    obtain ⟨hcurr, hy1⟩ := hcond
    have hycast : (y : ℤ) - 1 = ((y - 1 : ℕ) : ℤ) := by omega
    split
    · next hbelow =>
      dsimp only
      rw [hycast] at hbelow ⊢
      exact countSand_draw_draw hW hx hy (by omega) (by omega) (by omega) (by omega)
        (index_ne_of_ne (by omega) (by omega) hx hy (by omega)) hbelow
    · split
      · next hp =>
        have hxcast : (x : ℤ) - 1 = ((x - 1 : ℕ) : ℤ) := by omega
        split
        · next hleft =>
          dsimp only
          rw [hycast, hxcast] at hleft ⊢
          exact countSand_draw_draw hW hx hy (by omega) (by omega) (by omega) (by omega)
            (index_ne_of_ne (by omega) (by omega) hx hy (by omega)) hleft
        · rfl
      · split
        · next hp hxw =>
          have hxcast : (x : ℤ) + 1 = ((x + 1 : ℕ) : ℤ) := by omega
          split
          · next hright =>
            dsimp only
            rw [hycast, hxcast] at hright ⊢
            exact countSand_draw_draw hW hx hy (by omega) (by omega) (by omega) (by omega)
              (index_ne_of_ne (by omega) (by omega) hx hy (by omega)) hright
          · rfl
        · rfl
  · rfl

/-- C2 counterexample: on the concrete 3 x 2 grid blockedGrid the cell at
logical (1, 1) is non-empty, the cell below it at (1, 0) is occupied, the
down-left neighbor (0, 0) exists and is occupied, the down-right neighbor
(2, 0) exists and is empty, and the random sample 7/10 is above one half;
the claim then requires a move down-right, but one simulate call leaves the
grid completely unchanged: the code never consults the down-right neighbor
once the sample is above one half and a down-left neighbor exists. -/
theorem C2_counterexample :
    (blockedGrid.data.getD (blockedGrid.index 1 1) Sand.empty).sand.is_empty = false ∧
    (blockedGrid.data.getD (blockedGrid.index 1 0) Sand.empty).sand.is_empty = false ∧
    (blockedGrid.data.getD (blockedGrid.index 0 0) Sand.empty).sand.is_empty = false ∧
    (blockedGrid.data.getD (blockedGrid.index 2 0) Sand.empty).sand.is_empty = true ∧
    ((1 : ℚ)/2 < 7/10) ∧
    blockedGrid.simulate (fun _ => 7/10) = blockedGrid := by
  refine ⟨by decide, by decide, by decide, by decide, by norm_num, ?_⟩
  have hso : blockedGrid.scanOrder = [(0,0),(1,0),(2,0),(0,1),(1,1),(2,1)] := by decide
  unfold Grid.simulate
  rw [hso]
  rw [foldl_step _ _ _ _ _ (0,0) _ (Grid.stepCell_bottom blockedGrid _ 0 0)]
  rw [foldl_step _ _ _ _ _ (1,0) _ (Grid.stepCell_bottom blockedGrid _ 1 0)]
  rw [foldl_step _ _ _ _ _ (2,0) _ (Grid.stepCell_bottom blockedGrid _ 2 0)]
  rw [foldl_step _ _ _ _ _ (0,1) _
    (@Grid.stepCell_skip_empty blockedGrid 0 1 (fun _ => 7/10) 0 (by decide))]
  rw [foldl_step _ _ _ _ _ (1,1) _
    (@stepCell_blocked_left blockedGrid (fun _ => 7/10) 1 1 0 (by decide) (by decide)
      (by decide) (by norm_num) (by decide) (by decide))]
  rw [foldl_step _ _ _ _ _ (2,1) _
    (@Grid.stepCell_skip_empty blockedGrid 2 1 (fun _ => 7/10) 1 (by decide))]
  rfl

/-- C2 (amended): during one simulate step, for a non-empty cell not in the
bottom row whose cell directly below is occupied, exactly one random sample
is drawn; if the sample is above one half and the down-left neighbor exists,
then the cell moves down-left when that neighbor is empty and otherwise does
not move this step (the down-right neighbor is not consulted); otherwise
(sample at most one half, or no down-left neighbor), if the down-right
neighbor exists and is empty the cell moves down-right, and if not the cell
does not move this step. -/
theorem C2_diagonal_rule_amended (g : Grid) (rng : ℕ → ℚ) (x y k : ℕ) (hy : 1 ≤ y)
    (hcurr : (g.data.getD (g.index (x : ℤ) (y : ℤ)) Sand.empty).sand.is_empty = false)
    (hbelow : (g.data.getD (g.index (x : ℤ) ((y : ℤ) - 1)) Sand.empty).sand.is_empty
      = false) :
    (Grid.stepCell g rng x y k).2 = k + 1 ∧
    (1/2 < rng k ∧ 1 ≤ x →
      ((g.data.getD (g.index ((x : ℤ) - 1) ((y : ℤ) - 1)) Sand.empty).sand.is_empty = true →
        Grid.stepCell g rng x y k =
          ((g.draw_sand (x : ℤ) (y : ℤ) Sand.empty).draw_sand ((x : ℤ) - 1) ((y : ℤ) - 1)
            (g.data.getD (g.index (x : ℤ) (y : ℤ)) Sand.empty), k + 1)) ∧
      ((g.data.getD (g.index ((x : ℤ) - 1) ((y : ℤ) - 1)) Sand.empty).sand.is_empty = false →
        Grid.stepCell g rng x y k = (g, k + 1))) ∧
    (¬(1/2 < rng k ∧ 1 ≤ x) →
      ((x : ℤ) + 1 < (g.width : ℤ) ∧
          (g.data.getD (g.index ((x : ℤ) + 1) ((y : ℤ) - 1)) Sand.empty).sand.is_empty
            = true →
        Grid.stepCell g rng x y k =
          ((g.draw_sand (x : ℤ) (y : ℤ) Sand.empty).draw_sand ((x : ℤ) + 1) ((y : ℤ) - 1)
            (g.data.getD (g.index (x : ℤ) (y : ℤ)) Sand.empty), k + 1)) ∧
      (¬((x : ℤ) + 1 < (g.width : ℤ) ∧
          (g.data.getD (g.index ((x : ℤ) + 1) ((y : ℤ) - 1)) Sand.empty).sand.is_empty
            = true) →
        Grid.stepCell g rng x y k = (g, k + 1))) := by
  refine ⟨stepCell_snd_below_occupied rng k hy hcurr hbelow, ?_, ?_⟩
  · intro hp
    exact ⟨fun hleft => stepCell_move_left rng k hy hcurr hbelow hp.1 hp.2 hleft,
      fun hleft => stepCell_blocked_left rng k hy hcurr hbelow hp.1 hp.2 hleft⟩
  · intro hnp
    exact ⟨fun hr => stepCell_move_right rng k hy hcurr hbelow hnp hr.1 hr.2,
      fun hnr => stepCell_no_move_right rng k hy hcurr hbelow hnp hnr⟩

/-- C2 witness: the amended rule applied on blockedGrid with sample 7/10:
the down-left neighbor is occupied, so the cell does not move and one sample
is consumed. -/
theorem C2_diagonal_rule_amended_witness :
    Grid.stepCell blockedGrid (fun _ => 7/10) 1 1 0 = (blockedGrid, 0 + 1) := by
  have h := C2_diagonal_rule_amended blockedGrid (fun _ => 7/10) 1 1 0
    (by decide) (by decide) (by decide)
  exact (h.2.1 ⟨by norm_num, by decide⟩).2 (by decide)

/-- C1: in every grid state reachable by a sequence of paint_cell,
paint_radius, simulate and sync_if_dirty operations after construction, the
pixel stored at column x of row height - y - 1 (linear row-major index
(height - y - 1) * width + x) equals the display color of the cell stored at
the same linear index, for every in-bounds logical coordinate (x, y). -/
theorem C1_pixel_cell_sync (w h : ℕ) (ops : List Op) (x y : ℕ)
    (hx : x < w) (hy : y < h) :
    (runOps w h ops).rgba.getD ((h - y - 1) * w + x) (0, 0, 0, 0)
      = ((runOps w h ops).data.getD ((h - y - 1) * w + x) Sand.empty).color := by
  have hP : (runOps w h ops).width = w ∧ (runOps w h ops).height = h ∧
      (runOps w h ops).WF ∧ (runOps w h ops).Synced := by
    unfold runOps
    refine foldl_preserve
      (fun g => g.width = w ∧ g.height = h ∧ g.WF ∧ g.Synced) applyOp ?_ ops (Grid.new w h)
      ⟨rfl, rfl, Grid.new_WF w h, Grid.new_Synced w h⟩
    intro g op hg
    refine applyOp_preserve
      (fun g2 => g2.width = w ∧ g2.height = h ∧ g2.WF ∧ g2.Synced) ?_ ?_ g op hg
    · rintro g2 x2 y2 s2 ⟨hw2, hh2, hW2, hS2⟩
      refine ⟨?_, ?_, Grid.WF_draw_sand hW2 _ _ _, Grid.Synced_draw_sand hW2 hS2 _ _ _⟩
      · rw [Grid.draw_sand_width]; exact hw2
      · rw [Grid.draw_sand_height]; exact hh2
    · rintro g2 ⟨hw2, hh2, hW2, hS2⟩
      obtain ⟨hd, hr, hw3, hh3⟩ := Grid.update_texture_fst g2
      refine ⟨hw3.trans hw2, hh3.trans hh2, ?_, ?_⟩
      · unfold Grid.WF
        rw [hd, hr, hw3, hh3]
        exact hW2
      · intro i hi
        rw [hw3, hh3] at hi
        rw [hd, hr]
        exact hS2 i hi
  obtain ⟨hw, hh, hWF, hS⟩ := hP
  have hi : (h - y - 1) * w + x < (runOps w h ops).width * (runOps w h ops).height := by
    rw [hw, hh]
    exact Grid.nindex_lt hx hy
  exact hS _ hi

/-- C1 witness: the synchronization equation on a concrete reachable state. -/
theorem C1_pixel_cell_sync_witness :
    (runOps 2 2 [Op.paintCell 0 0 sandCell]).rgba.getD ((2 - 0 - 1) * 2 + 0) (0, 0, 0, 0)
      = ((runOps 2 2 [Op.paintCell 0 0 sandCell]).data.getD
          ((2 - 0 - 1) * 2 + 0) Sand.empty).color :=
  C1_pixel_cell_sync 2 2 [Op.paintCell 0 0 sandCell] 0 0 (by decide) (by decide)

/-! Arithmetic of the rounded-disc test of draw_sand_radius. -/

lemma mem_intRange {a b z : ℤ} : z ∈ Grid.intRange a b ↔ a ≤ z ∧ z ≤ b := by
  unfold Grid.intRange
  rw [List.mem_map]
  constructor
  · rintro ⟨i, hi, he⟩
    rw [List.mem_range] at hi
    omega
  · rintro ⟨h1, h2⟩
    refine ⟨(z - a).toNat, ?_, ?_⟩
    · rw [List.mem_range]
      omega
    · omega

lemma roundSqrt_mono {m n : ℕ} (h : m ≤ n) : Grid.roundSqrt m ≤ Grid.roundSqrt n := by
  unfold Grid.roundSqrt
  have hs : Nat.sqrt m ≤ Nat.sqrt n := Nat.sqrt_le_sqrt h
  split
  · split
    · exact hs
    · omega
  · next h4m =>
    split
    · next h4n =>
      rcases Nat.lt_or_ge (Nat.sqrt m) (Nat.sqrt n) with h2 | h2
      · omega
      · have he : Nat.sqrt n = Nat.sqrt m := Nat.le_antisymm h2 hs
        rw [he] at h4n
        linarith
    · omega

lemma roundSqrt_sq (k : ℕ) : Grid.roundSqrt (k * k) = k := by
  unfold Grid.roundSqrt
  rw [Nat.sqrt_eq]
  rw [if_pos (by nlinarith)]

lemma roundSqrt_lower {d2n t : ℕ} (h : (t + 1) * (t + 1) ≤ d2n) :
    t + 1 ≤ Grid.roundSqrt d2n := by
  have hm := roundSqrt_mono h
  rw [roundSqrt_sq] at hm
  omega

lemma roundHalfAway_le {r : ℚ} (h : 0 ≤ r) :
    Grid.roundHalfAway r ≤ Grid.truncToInt r + 1 := by
  rw [Grid.roundHalfAway, if_pos h, Grid.truncToInt, if_pos h]
  have h1 := Int.floor_le_floor (show r + 1/2 ≤ r + ((1 : ℤ) : ℚ) by push_cast; linarith)
  rwa [Int.floor_add_int] at h1

lemma roundHalfAway_pos_nonneg {r : ℚ} (h : 1 ≤ Grid.roundHalfAway r) : 0 ≤ r := by
  by_contra hneg
  push_neg at hneg
  rw [Grid.roundHalfAway, if_neg (by linarith)] at h
  have hc : ⌈r - 1/2⌉ ≤ (0 : ℤ) := Int.ceil_le.2 (by push_cast; linarith)
  omega

lemma inDisc_diff_bound {d2n : ℕ} {r : ℚ}
    (h : (Grid.roundSqrt d2n : ℤ) < Grid.roundHalfAway r)
    {d : ℤ} (hd : d ^ 2 ≤ (d2n : ℤ)) : |d| ≤ Grid.truncToInt r := by
  have h00 : (0 : ℤ) ≤ (Grid.roundSqrt d2n : ℤ) := Int.natCast_nonneg _
  have hr1 : 1 ≤ Grid.roundHalfAway r := by omega
  have hr0 : 0 ≤ r := roundHalfAway_pos_nonneg hr1
  have ht0 : (0 : ℤ) ≤ Grid.truncToInt r := by
    rw [Grid.truncToInt, if_pos hr0]
    exact Int.floor_nonneg.2 hr0
  by_contra hgt
  push_neg at hgt
  set t := Grid.truncToInt r with hts
  have habs : t + 1 ≤ |d| := by omega
  have h1 : (t + 1) ^ 2 ≤ d ^ 2 := by
    have := abs_nonneg d
    nlinarith [sq_abs d]
  have h2 : ((t.toNat + 1) * (t.toNat + 1) : ℤ) ≤ (d2n : ℤ) := by
    have he : ((t.toNat + 1) * (t.toNat + 1) : ℤ) = (t + 1) ^ 2 := by
      have : (t.toNat : ℤ) = t := by omega
      rw [this]
      ring
    rw [he]
    exact le_trans h1 hd
  have h3 : (t.toNat + 1) * (t.toNat + 1) ≤ d2n := by exact_mod_cast h2
  have h4 := roundSqrt_lower h3
  have h5 : Grid.roundHalfAway r ≤ t + 1 := roundHalfAway_le hr0
  omega

lemma inDisc_mem_square {c : ℤ × ℤ} {r : ℚ} {p : ℤ × ℤ}
    (h : Grid.inDisc c r p = true) :
    c.1 - Grid.truncToInt r ≤ p.1 ∧ p.1 ≤ c.1 + Grid.truncToInt r ∧
    c.2 - Grid.truncToInt r ≤ p.2 ∧ p.2 ≤ c.2 + Grid.truncToInt r := by
  rw [Grid.inDisc, decide_eq_true_eq] at h
  have hd2 : ((Grid.distSq p c : ℕ) : ℤ) = (p.1 - c.1) ^ 2 + (p.2 - c.2) ^ 2 := by
    rw [Grid.distSq]
    exact Int.toNat_of_nonneg (by positivity)
  have hb1 : |p.1 - c.1| ≤ Grid.truncToInt r := by
    refine inDisc_diff_bound h ?_
    rw [hd2]
    nlinarith [sq_nonneg (p.2 - c.2)]
  have hb2 : |p.2 - c.2| ≤ Grid.truncToInt r := by
    refine inDisc_diff_bound h ?_
    rw [hd2]
    nlinarith [sq_nonneg (p.1 - c.1)]
  rw [abs_le] at hb1 hb2
  omega

/-- The inner loop of draw_sand_radius over one pixel row: the cell at an
in-bounds (x, y) ends up painted exactly when the row is y, the column list
contains x, and (x, y) passes the rounded-disc test. -/
lemma paint_row_getD (cx cy : ℤ) (t : SandType) (r : ℚ) (py : ℤ) (Lx : List ℤ)
    {x y : ℕ} (g : Grid) (hW : g.WF) (hx : x < g.width) (hy : y < g.height) :
    (Lx.foldl (fun g2 px =>
        if Grid.inDisc (cx, cy) r (px, py) then
          g2.draw_sand px py (Sand.from_type t (px, py))
        else g2) g).data.getD (g.index (x : ℤ) (y : ℤ)) Sand.empty
      = if (x : ℤ) ∈ Lx ∧ py = (y : ℤ) ∧
            Grid.inDisc (cx, cy) r ((x : ℤ), (y : ℤ)) = true
        then Sand.from_type t ((x : ℤ), (y : ℤ))
        else g.data.getD (g.index (x : ℤ) (y : ℤ)) Sand.empty := by
  induction Lx generalizing g with
  | nil =>
    rw [List.foldl_nil, if_neg]
    rintro ⟨hmem, _⟩
    simp at hmem
  | cons a L ih =>
    rw [List.foldl_cons]
    set g1 := (if Grid.inDisc (cx, cy) r (a, py) then
        g.draw_sand a py (Sand.from_type t (a, py)) else g) with hg1
    have hw1 : g1.width = g.width := by
      rw [hg1]; split
      · exact Grid.draw_sand_width g _ _ _
      · rfl
    have hh1 : g1.height = g.height := by
      rw [hg1]; split
      · exact Grid.draw_sand_height g _ _ _
      · rfl
    have hW1 : g1.WF := by
      rw [hg1]; split
      · exact Grid.WF_draw_sand hW _ _ _
      · exact hW
    have hidx : g1.index (x : ℤ) (y : ℤ) = g.index (x : ℤ) (y : ℤ) :=
      Grid.index_congr hw1 hh1 _ _
    have hih := ih g1 hW1 (by omega) (by omega)
    rw [hidx] at hih
    rw [hih]
    have hbase : g1.data.getD (g.index (x : ℤ) (y : ℤ)) Sand.empty
        = if a = (x : ℤ) ∧ py = (y : ℤ) ∧
              Grid.inDisc (cx, cy) r ((x : ℤ), (y : ℤ)) = true
          then Sand.from_type t ((x : ℤ), (y : ℤ))
          else g.data.getD (g.index (x : ℤ) (y : ℤ)) Sand.empty := by
      by_cases hcase : a = (x : ℤ) ∧ py = (y : ℤ)
      · obtain ⟨ha, hpy⟩ := hcase
        subst ha
        subst hpy
        by_cases hd : Grid.inDisc (cx, cy) r ((x : ℤ), (y : ℤ)) = true
        · rw [hg1, if_pos hd, if_pos ⟨rfl, rfl, hd⟩]
          rw [Grid.draw_sand_pos g (by omega) (by omega) (by omega) (by omega)]
          exact getD_set_self (by rw [hW.1]; exact Grid.index_lt g hx hy) _ _
        · rw [hg1, if_neg hd, if_neg (fun hc => hd hc.2.2)]
      · rw [if_neg (fun hc => hcase ⟨hc.1, hc.2.1⟩), hg1]
        split
        · exact (Grid.draw_sand_frame_ne _ hx hy hcase).1
        · rfl
    rw [hbase]
    by_cases h1 : (x : ℤ) ∈ L ∧ py = (y : ℤ) ∧
        Grid.inDisc (cx, cy) r ((x : ℤ), (y : ℤ)) = true
    · rw [if_pos h1, if_pos ⟨List.mem_cons_of_mem _ h1.1, h1.2⟩]
    · rw [if_neg h1]
      by_cases h2 : a = (x : ℤ) ∧ py = (y : ℤ) ∧
          Grid.inDisc (cx, cy) r ((x : ℤ), (y : ℤ)) = true
      · rw [if_pos h2, if_pos ⟨by rw [h2.1]; exact List.mem_cons_self _ _, h2.2⟩]
      · rw [if_neg h2, if_neg]
        rintro ⟨hmem, hrest⟩
        rcases List.mem_cons.1 hmem with hax | hmemL
        · exact h2 ⟨hax.symm, hrest⟩
        · exact h1 ⟨hmemL, hrest⟩

/-- The full double loop of draw_sand_radius: the cell at an in-bounds (x, y)
is painted exactly when y is in the row list, x in the column list, and
(x, y) passes the rounded-disc test. -/
lemma paint_rows_getD (cx cy : ℤ) (t : SandType) (r : ℚ) (Lx Ly : List ℤ)
    {x y : ℕ} (g : Grid) (hW : g.WF) (hx : x < g.width) (hy : y < g.height) :
    (Ly.foldl (fun g1 py => Lx.foldl (fun g2 px =>
        if Grid.inDisc (cx, cy) r (px, py) then
          g2.draw_sand px py (Sand.from_type t (px, py))
        else g2) g1) g).data.getD (g.index (x : ℤ) (y : ℤ)) Sand.empty
      = if (y : ℤ) ∈ Ly ∧ (x : ℤ) ∈ Lx ∧
            Grid.inDisc (cx, cy) r ((x : ℤ), (y : ℤ)) = true
        then Sand.from_type t ((x : ℤ), (y : ℤ))
        else g.data.getD (g.index (x : ℤ) (y : ℤ)) Sand.empty := by
  induction Ly generalizing g with
  | nil =>
    rw [List.foldl_nil, if_neg]
    rintro ⟨hmem, _⟩
    simp at hmem
  | cons b Ly2 ih =>
    rw [List.foldl_cons]
    set g1 := Lx.foldl (fun g2 px =>
        if Grid.inDisc (cx, cy) r (px, b) then
          g2.draw_sand px b (Sand.from_type t (px, b))
        else g2) g with hg1
    have hkeep : g1.width = g.width ∧ g1.height = g.height ∧ g1.WF := by
      rw [hg1]
      refine foldl_preserve
        (fun g2 => g2.width = g.width ∧ g2.height = g.height ∧ g2.WF) _ ?_ Lx g
        ⟨rfl, rfl, hW⟩
      rintro g2 a ⟨ha1, ha2, ha3⟩
      split
      · exact ⟨(Grid.draw_sand_width g2 _ _ _).trans ha1,
          (Grid.draw_sand_height g2 _ _ _).trans ha2, Grid.WF_draw_sand ha3 _ _ _⟩
      · exact ⟨ha1, ha2, ha3⟩
    obtain ⟨hw1, hh1, hW1⟩ := hkeep
    have hidx : g1.index (x : ℤ) (y : ℤ) = g.index (x : ℤ) (y : ℤ) :=
      Grid.index_congr hw1 hh1 _ _
    have hih := ih g1 hW1 (by omega) (by omega)
    rw [hidx] at hih
    rw [hih]
    have hbase := paint_row_getD cx cy t r b Lx g hW hx hy
    rw [← hg1] at hbase
    rw [hbase]
    by_cases h1 : (y : ℤ) ∈ Ly2 ∧ (x : ℤ) ∈ Lx ∧
        Grid.inDisc (cx, cy) r ((x : ℤ), (y : ℤ)) = true
    · rw [if_pos h1, if_pos ⟨List.mem_cons_of_mem _ h1.1, h1.2⟩]
    · rw [if_neg h1]
      by_cases h2 : (x : ℤ) ∈ Lx ∧ b = (y : ℤ) ∧
          Grid.inDisc (cx, cy) r ((x : ℤ), (y : ℤ)) = true
      · rw [if_pos h2, if_pos ⟨by rw [h2.2.1]; exact List.mem_cons_self _ _, h2.1, h2.2.2⟩]
      · rw [if_neg h2, if_neg]
        rintro ⟨hmem, hx2, hrest⟩
        rcases List.mem_cons.1 hmem with hby | hmemL
        · exact h2 ⟨hx2, hby.symm, hrest⟩
        · exact h1 ⟨hmemL, hx2, hrest⟩

/-- C4: draw_sand_radius (paint_radius) paints, through paint_cell, exactly
the in-bounds integer points whose Euclidean distance to the center rounds
to strictly less than the rounded radius, with a fresh cell of the given
material, and leaves every other cell unchanged. -/
theorem C4_paint_radius_disc (g : Grid) (cx cy : ℤ) (t : SandType) (r : ℚ)
    (hW : g.WF) (x y : ℕ) (hx : x < g.width) (hy : y < g.height) :
    (g.draw_sand_radius cx cy t r).data.getD (g.index (x : ℤ) (y : ℤ)) Sand.empty
      = if Grid.inDisc (cx, cy) r ((x : ℤ), (y : ℤ)) = true
        then Sand.from_type t ((x : ℤ), (y : ℤ))
        else g.data.getD (g.index (x : ℤ) (y : ℤ)) Sand.empty := by
  unfold Grid.draw_sand_radius
  rw [paint_rows_getD cx cy t r _ _ g hW hx hy]
  by_cases hd : Grid.inDisc (cx, cy) r ((x : ℤ), (y : ℤ)) = true
  · obtain ⟨b1, b2, b3, b4⟩ := inDisc_mem_square hd
    rw [if_pos ⟨mem_intRange.2 ⟨by omega, by omega⟩,
      mem_intRange.2 ⟨by omega, by omega⟩, hd⟩, if_pos hd]
  · rw [if_neg (fun hc => hd hc.2.2), if_neg hd]

/-- C4 witness: painting a radius-2 disc centered at (3, 3) on a 7 x 7 grid
paints the cell (2, 2), whose distance sqrt 2 rounds to 1 below the rounded
radius 2. -/
theorem C4_paint_radius_disc_witness :
    ((Grid.new 7 7).draw_sand_radius 3 3 SandType.sand 2).data.getD
        ((Grid.new 7 7).index ((2 : ℕ) : ℤ) ((2 : ℕ) : ℤ)) Sand.empty
      = Sand.from_type SandType.sand (((2 : ℕ) : ℤ), ((2 : ℕ) : ℤ)) := by
  have h := C4_paint_radius_disc (Grid.new 7 7) 3 3 SandType.sand 2 (Grid.new_WF 7 7)
    2 2 (by decide) (by decide)
  rw [h, if_pos]
  rw [Grid.inDisc, decide_eq_true_eq]
  have hdist : Grid.distSq (((2 : ℕ) : ℤ), ((2 : ℕ) : ℤ)) (3, 3) = 2 := by
    rw [Grid.distSq]
    norm_num
    decide
  have hsqrt : Nat.sqrt 2 = 1 := by
    have h1 : 1 ≤ Nat.sqrt 2 := Nat.le_sqrt.2 (by norm_num)
    have h2 : Nat.sqrt 2 < 2 := Nat.sqrt_lt.2 (by norm_num)
    omega
  have hround : Grid.roundSqrt 2 = 1 := by
    rw [Grid.roundSqrt, hsqrt, if_pos (by norm_num)]
  have hhalf : Grid.roundHalfAway 2 = 2 := by
    rw [Grid.roundHalfAway, if_pos (by norm_num)]
    have : ((2 : ℚ) + 1/2) = (5 : ℚ)/2 := by norm_num
    rw [this]
    rw [show ((5 : ℚ)/2) = (2 : ℤ) + (1 : ℚ)/2 by push_cast; ring]
    rw [add_comm]
    rw [Int.floor_add_int]
    norm_num
  rw [hdist, hround, hhalf]
  norm_num

/-- C9: one simulate step preserves the number of non-empty cells, for every
grid state and every value of the random source: every move paints its
source empty and paints a destination that was empty at the moment of the
move. -/
theorem C9_sand_conservation (g : Grid) (rng : ℕ → ℚ) (hW : g.WF) :
    (g.simulate rng).countSand = g.countSand := by
  unfold Grid.simulate
  refine (Grid.foldl_stepCell_inv g.width g.height
    (fun g2 => g2.WF ∧ g2.countSand = g.countSand) ?_ rng g.scanOrder
    (fun p hp => Grid.mem_scanOrder.1 hp) (g, 0) rfl rfl ⟨hW, rfl⟩).2.2.2
  rintro g2 rng2 x y k hw hh hxw hyh ⟨hW2, hc⟩
  refine ⟨Grid.WF_stepCell hW2 rng2 x y k, ?_⟩
  rw [stepCell_countSand rng2 k hW2 (by omega) (by omega)]
  exact hc

/-- C9 witness: sand conservation on the concrete grid fallGrid. -/
theorem C9_sand_conservation_witness :
    (fallGrid.simulate (fun _ => 0)).countSand = fallGrid.countSand :=
  C9_sand_conservation fallGrid (fun _ => 0) ⟨by decide, by decide⟩

/-- C6: simulate scans exactly the in-bounds cells, in ascending logical row
order with ascending columns inside a row (the fold over scanOrder threading
the sample counter), each position exactly once; and one scan step writes
cells and pixels only in the current row y and the row y - 1 directly below,
so a cell moved down lands in a row the scan has already passed and is not
processed again within the same step, and no cell moves more than one row. -/
theorem C6_scan_order :
    (∀ (g : Grid) (rng : ℕ → ℚ), g.simulate rng =
      (g.scanOrder.foldl (fun s2 pos => Grid.stepCell s2.1 rng pos.1 pos.2 s2.2) (g, 0)).1) ∧
    (∀ g : Grid, List.Pairwise scanLt g.scanOrder) ∧
    (∀ (g : Grid) (p : ℕ × ℕ), p ∈ g.scanOrder ↔ p.1 < g.width ∧ p.2 < g.height) ∧
    (∀ g : Grid, g.scanOrder.Nodup) ∧
    (∀ (g : Grid) (rng : ℕ → ℚ) (x y k x2 y2 : ℕ),
      x2 < g.width → y2 < g.height → y2 ≠ y → y2 + 1 ≠ y →
      (Grid.stepCell g rng x y k).1.data.getD (g.index (x2 : ℤ) (y2 : ℤ)) Sand.empty
          = g.data.getD (g.index (x2 : ℤ) (y2 : ℤ)) Sand.empty ∧
      (Grid.stepCell g rng x y k).1.rgba.getD (g.index (x2 : ℤ) (y2 : ℤ)) (0, 0, 0, 0)
          = g.rgba.getD (g.index (x2 : ℤ) (y2 : ℤ)) (0, 0, 0, 0)) :=
  ⟨fun _ _ => rfl, Grid.scanOrder_pairwise,
    fun _ _ => Grid.mem_scanOrder, Grid.scanOrder_nodup,
    fun g rng x y k x2 y2 hx2 hy2 hny hny1 =>
      @Grid.stepCell_frame_row g rng x y k x2 y2 hx2 hy2 hny hny1⟩

/-- C6 witness: a scan step at (1, 1) on fallGrid leaves row 2 untouched. -/
theorem C6_scan_order_witness :
    (Grid.stepCell fallGrid (fun _ => 0) 1 1 0).1.data.getD
        (fallGrid.index 2 2) Sand.empty
      = fallGrid.data.getD (fallGrid.index 2 2) Sand.empty :=
  (C6_scan_order.2.2.2.2 fallGrid (fun _ => 0) 1 1 0 2 2
    (by decide) (by decide) (by decide) (by decide)).1

end Glass
